import Mathlib

/-!
Verification development for the connectlib federated-learning core.

The Python sources are shallowly embedded:
* numpy per-layer arrays become `List ℚ` with element-wise operations;
* assertions and raised exceptions become `Except` values;
* `uuid.uuid4()` becomes an explicit fresh-id counter threaded through the
  world state (only freshness/distinctness of the generated ids matters);
* mutable objects (nodes, the strategy) become explicit state passing.

Components of the repository that are referenced by the sources but whose
definitions are not part of the excerpt (the `ScaffoldSharedState` /
`ScaffoldAveragedStates` schemas, the reference types, `AggregationNode`
and `TestDataNode`) are modelled from the specification; each such
definition says so in its doc comment.
-/

/-! ## Numpy model -/

/-- A per-layer numpy array, modelled as a list of rationals. -/
abbrev NArray := List ℚ

/-- Scalar multiplication of an array (`c * layer_values` in numpy). -/
def npScale (c : ℚ) (xs : NArray) : NArray := xs.map (fun v => c * v)

/-- Element-wise addition of two arrays of equal shape. -/
def npAdd (xs ys : NArray) : NArray := List.zipWith (fun a b => a + b) xs ys

/-- Element-wise sum of a list of equal-shape arrays (`np.sum(-, axis=0)`). -/
def npSum0 : List NArray → NArray
  | [] => []
  | x :: xs => xs.foldl npAdd x

/-- A Python `assert cond, msg`: succeeds silently or raises. -/
def pyAssert (p : Prop) [Decidable p] (msg : String) : Except String Unit :=
  if p then .ok () else .error msg

/-- Sequential list traversal in `Except`: the Python pattern of building a
result list with `append` inside a `for` loop, where any raise aborts. -/
def exceptMap {α β : Type} (f : α → Except String β) : List α → Except String (List β)
  | [] => .ok []
  | x :: xs => do
    let y ← f x
    let ys ← exceptMap f xs
    pure (y :: ys)

/-! ## Schemas -/

/-- Modelled from the spec: the *Scaffold state* shared-state payload
(`connectlib.schemas.ScaffoldSharedState`, not part of the excerpt):
an ordered sequence of per-layer control-variate updates, an ordered
sequence of per-layer weight updates, an ordered sequence of per-layer
server control-variate arrays, and a sample count.  Field names follow
their uses in `Scaffold.avg_shared_states`. -/
structure ScaffoldSharedState where
  control_variate_update : List NArray
  weight_update : List NArray
  server_control_variate : List NArray
  n_samples : Nat
deriving DecidableEq, Inhabited

/-- Modelled from the spec: the aggregation output payload
(`connectlib.schemas.ScaffoldAveragedStates`, not part of the excerpt):
the updated server control variate and the averaged weight update. -/
structure ScaffoldAveragedStates where
  server_control_variate : List NArray
  avg_weight_update : List NArray
deriving DecidableEq, Inhabited

/-! ## Scaffold aggregation (`connectlib/strategies/scaffold.py`) -/

/-- The inner loop of `Scaffold._check_shared_states`: for every zipped pair
of server-control-variate layers, `np.testing.assert_array_equal`. -/
def scvPairLoop : List (NArray × NArray) → Except String Unit
  | [] => .ok ()
  | p :: rest => do
    pyAssert (p.1 = p.2) "all server_control_variate in the shared_states are not equal"
    scvPairLoop rest

/-- The `for shared_state in shared_states` loop of
`Scaffold._check_shared_states`: each state's three sequence lengths are
compared against the first state's, then the server control variates are
compared layer by layer. -/
def checkLoop (s0 : ScaffoldSharedState) : List ScaffoldSharedState → Except String Unit
  | [] => .ok ()
  | s :: rest => do
    pyAssert (s.control_variate_update.length = s0.control_variate_update.length)
      "the length of control_variate_update should be the same for each shared_state"
    pyAssert (s.weight_update.length = s0.weight_update.length)
      "the length of weight_update should be the same for each shared_state"
    pyAssert (s.server_control_variate.length = s0.server_control_variate.length)
      "the length of server_control_variate should be the same for each shared_state"
    scvPairLoop (s0.server_control_variate.zip s.server_control_variate)
    checkLoop s0 rest

/-- Embeds `Scaffold._check_shared_states`: a falsy (empty) list fails the
first assertion; then the per-state loop runs over the whole list, and
finally the three sequence lengths of the first state are required to
agree with each other. -/
def Scaffold.check_shared_states (shared_states : List ScaffoldSharedState) :
    Except String Unit :=
  match shared_states with
  | [] => .error "shared_states should contain at least one element"
  | s0 :: _ => do
    checkLoop s0 shared_states
    pyAssert (s0.control_variate_update.length = s0.server_control_variate.length ∧
        s0.server_control_variate.length = s0.weight_update.length)
      "the length of server_control_variate, weight_update and server_control_variate should be the same"

/-- Embeds `Scaffold._weight_arrays`: asserts that `client_weight` and
`states_to_aggregate` have the same length, then scales layer `layer_idx`
of each client's state by that client's weight, in client order. -/
def Scaffold.weight_arrays (client_weight : List ℚ)
    (states_to_aggregate : List (List NArray)) (layer_idx : Nat) :
    Except String (List NArray) := do
  pyAssert (client_weight.length = states_to_aggregate.length)
    "n_samples_per_client and states_to_aggregate should have the same length"
  pure ((client_weight.zip states_to_aggregate).map
    (fun p => npScale p.1 (p.2.getD layer_idx [])))

/-- Embeds `Scaffold._update_server_control_variate`: for every layer of the
first client's control-variate update, the weighted client arrays plus the
current server control variate of that layer are summed.  Indexing the
first element of an empty list raises in Python. -/
def Scaffold.update_server_control_variate (server_control_variate : List NArray)
    (control_variate_updates : List (List NArray)) (client_weight : List ℚ) :
    Except String (List NArray) :=
  match control_variate_updates with
  | [] => .error "IndexError: list index out of range"
  | c0 :: _ =>
    exceptMap (fun layer_idx => do
        let weighted ← Scaffold.weight_arrays client_weight control_variate_updates layer_idx
        pure (npSum0 (weighted ++ [server_control_variate.getD layer_idx []])))
      (List.range c0.length)

/-- Embeds `Scaffold._avg_weight_update`: for every layer of the first
client's weight update, the weighted client arrays are summed and the
aggregation learning rate is applied. -/
def Scaffold.avg_weight_update (aggregation_lr : ℚ)
    (weight_updates : List (List NArray)) (client_weight : List ℚ) :
    Except String (List NArray) :=
  match weight_updates with
  | [] => .error "IndexError: list index out of range"
  | w0 :: _ =>
    exceptMap (fun layer_idx => do
        let weighted ← Scaffold.weight_arrays client_weight weight_updates layer_idx
        pure (npScale aggregation_lr (npSum0 weighted)))
      (List.range w0.length)

/-- Embeds `Scaffold.avg_shared_states`: checks the shared states, computes
the per-client weights `n_samples_i / Σ n_samples`, takes the first
client's server control variate, and builds the averaged output. -/
def Scaffold.avg_shared_states (aggregation_lr : ℚ)
    (shared_states : List ScaffoldSharedState) :
    Except String ScaffoldAveragedStates := do
  Scaffold.check_shared_states shared_states
  let n_samples_per_client := shared_states.map (fun s => (s.n_samples : ℚ))
  let client_weight := n_samples_per_client.map (fun x => x / n_samples_per_client.sum)
  match shared_states with
  | [] => .error "IndexError: list index out of range"
  | s0 :: _ => do
    let scv ← Scaffold.update_server_control_variate s0.server_control_variate
      (shared_states.map (fun s => s.control_variate_update)) client_weight
    let awu ← Scaffold.avg_weight_update aggregation_lr
      (shared_states.map (fun s => s.weight_update)) client_weight
    pure ⟨scv, awu⟩

/-! ## Index generator (`connectlib/index_generator/base.py`) -/

/-- The state constructed by `BaseIndexGenerator.__init__`.  The numpy
random generator is represented by the seed that creates it. -/
structure BaseIndexGenerator where
  n_samples : Int
  batch_size : Int
  num_updates : Int
  shuffle : Bool
  drop_last : Bool
  seed : Int
  counter : Int
  n_epoch_generated : Int
deriving DecidableEq, Inhabited

/-- Embeds `BaseIndexGenerator.__init__` with its exact branch order:
negative `n_samples` raises; a `None` batch size falls back to
`n_samples`; a negative batch size raises; a batch size larger than
`n_samples` is clamped to `n_samples`; otherwise it is kept. -/
def BaseIndexGenerator.create (n_samples : Int) (batch_size : Option Int)
    (num_updates : Int) (shuffle drop_last : Bool) (seed : Int) :
    Except String BaseIndexGenerator :=
  if n_samples < 0 then
    .error "n_samples must be non negative."
  else
    match batch_size with
    | none => .ok ⟨n_samples, n_samples, num_updates, shuffle, drop_last, seed, 0, 0⟩
    | some b =>
      if b < 0 then
        .error "batch_size must be non negative."
      else if b > n_samples then
        .ok ⟨n_samples, n_samples, num_updates, shuffle, drop_last, seed, 0, 0⟩
      else
        .ok ⟨n_samples, b, num_updates, shuffle, drop_last, seed, 0, 0⟩

/-! ## State references and nodes -/

/-- Modelled from the spec: opaque handle to a participant's private model
state (`connectlib.nodes.references.LocalStateRef`, not part of the
excerpt); `TrainDataNode.compute` constructs it from the operation id. -/
structure LocalStateRef where
  key : Nat
deriving DecidableEq, Inhabited

/-- Modelled from the spec: opaque handle to an aggregate shared state
(`connectlib.nodes.references.SharedStateRef`, not part of the excerpt);
constructed from the producing operation id. -/
structure SharedStateRef where
  key : Nat
deriving DecidableEq, Inhabited

/-- The operation record built by `TrainDataNode.compute` (its
`train_tuple` dictionary).  Reference keys are operation ids (`Nat`). -/
structure TrainTuple where
  algo_key : String
  data_manager_key : String
  train_data_sample_keys : List String
  in_head_model_id : Option Nat
  in_trunk_model_id : Option Nat
  tag : String
  composite_traintuple_id : Nat
deriving DecidableEq, Inhabited

/-- Embeds `connectlib.nodes.train_data_node.TrainDataNode`: node identity,
dataset identity, sample keys, objective name, and the node's own ordered
operation log `tuples`. -/
structure TrainDataNode where
  node_id : String
  data_manager_key : String
  data_sample_keys : List String
  objective_name : String
  tuples : List TrainTuple
deriving DecidableEq, Inhabited

/-- Embeds `TrainDataNode.compute`: defaults the sample keys to the node's
own, records one train tuple carrying the input reference keys and the
freshly generated operation id `op_id` (`uuid.uuid4().hex` is modelled as
an id supplied by the caller's fresh-id counter), and returns a
`LocalStateRef` and a `SharedStateRef` both bound to that id. -/
def TrainDataNode.compute (node : TrainDataNode) (operation_key : String)
    (data_sample_keys : Option (List String)) (local_state : Option LocalStateRef)
    (shared_state : Option SharedStateRef) (op_id : Nat) :
    TrainDataNode × LocalStateRef × SharedStateRef :=
  let dsk := data_sample_keys.getD node.data_sample_keys
  let train_tuple : TrainTuple :=
    ⟨operation_key, node.data_manager_key, dsk,
      local_state.map (fun r => r.key), shared_state.map (fun r => r.key),
      "train", op_id⟩
  ({ node with tuples := node.tuples ++ [train_tuple] }, ⟨op_id⟩, ⟨op_id⟩)

/-- Modelled from the spec: the operation record of the coordinating party
(spec 4.3) — the ordered input `SharedStateRef` keys, the produced
operation id and the round index. -/
structure AggTuple where
  algo_key : String
  in_shared_model_ids : List Nat
  aggregate_id : Nat
  round_idx : Nat
deriving DecidableEq, Inhabited

/-- Modelled from the spec: the data-less aggregator node (spec 4.3,
`connectlib.nodes.aggregation_node.AggregationNode`, not part of the
excerpt), holding only its identity and its own operation log. -/
structure AggregationNode where
  node_id : String
  tuples : List AggTuple
deriving DecidableEq, Inhabited

/-- Modelled from the spec: the aggregator's `update_states` (spec 4.3) —
wraps one "combine shared states" operation taking the ordered sequence of
per-participant `SharedStateRef`s and producing exactly one new
`SharedStateRef`, bound to the fresh operation id `op_id`. -/
def AggregationNode.update_states (agg : AggregationNode)
    (inputs : List SharedStateRef) (round_idx : Nat) (op_id : Nat) :
    AggregationNode × SharedStateRef :=
  ({ agg with tuples :=
      agg.tuples ++ [⟨"avg_shared_states", inputs.map (fun r => r.key), op_id, round_idx⟩] },
    ⟨op_id⟩)

/-- Modelled from the spec: the evaluation record appended to a test node —
the forward operation id it consumes and the round index. -/
structure TestTuple where
  traintuple_id : Nat
  round_idx : Nat
deriving DecidableEq, Inhabited

/-- Modelled from the spec: an evaluation node
(`connectlib.nodes.test_data_node.TestDataNode`, not part of the excerpt):
node identity, sample keys, and its own ordered log of evaluation
operations. -/
structure TestDataNode where
  node_id : String
  test_data_sample_keys : List String
  tuples : List TestTuple
deriving DecidableEq, Inhabited

/-- The strategy's cross-round state: the per-participant local-state
references and the single current shared-state reference
(`Scaffold.__init__` sets both to `None`). -/
structure ScaffoldState where
  local_states : Option (List LocalStateRef)
  avg_shared_state : Option SharedStateRef
deriving DecidableEq, Inhabited

/-- The explicit world threaded through the orchestration code: the
strategy state, every node (each owning its log), and the fresh
operation-id counter standing in for `uuid.uuid4`. -/
structure FLWorld where
  strat : ScaffoldState
  train_nodes : List TrainDataNode
  test_nodes : List TestDataNode
  aggregation_node : AggregationNode
  next_op_id : Nat
deriving DecidableEq, Inhabited

/-- Python exceptions surfaced by the orchestration code. -/
inductive PyError where
  | assertionError (msg : String)
  | notImplementedError (msg : String)
  | backendError (msg : String)
deriving DecidableEq

/-- The `for i, node in enumerate(train_data_nodes)` loop of
`Scaffold.perform_round`: each node receives as local-state input the
`i`-th stored local state (absent when none are stored yet) and as
shared-state input the strategy's current shared state; the produced
reference pairs are collected in node order.  `i` is the enumeration
index and `f` the fresh-id counter. -/
def roundTrainLoop (algo_key : String) (prev_locals : Option (List LocalStateRef))
    (shared : Option SharedStateRef) :
    List TrainDataNode → Nat → Nat →
      List TrainDataNode × List LocalStateRef × List SharedStateRef × Nat
  | [], _, f => ([], [], [], f)
  | node :: rest, i, f =>
    let prev := prev_locals.map (fun ls => ls.getD i default)
    let out := node.compute algo_key none prev shared f
    let tail := roundTrainLoop algo_key prev_locals shared rest (i + 1) (f + 1)
    (out.1 :: tail.1, out.2.1 :: tail.2.1, out.2.2 :: tail.2.2.1, tail.2.2.2)

/-- Embeds `Scaffold.perform_round`: first every participant node issues
its train operation, then the aggregator issues exactly one aggregation
operation over the collected shared-state references, and only then are
the strategy's stored local states and shared state replaced.  Whether the
backend accepts the aggregation operation is exogenous (spec 4.4 step 2:
"if step 2 is rejected by the backend"); a rejection is modelled by
`backend_accepts = false` and raises after the train loop has already
appended to the participants' logs, leaving the strategy state and the
aggregator log untouched — the raised error carries the resulting world. -/
def Scaffold.perform_round (algo_key : String) (w : FLWorld) (round_idx : Nat)
    (backend_accepts : Bool) : Except (PyError × FLWorld) FLWorld :=
  let loop := roundTrainLoop algo_key w.strat.local_states w.strat.avg_shared_state
    w.train_nodes 0 w.next_op_id
  if backend_accepts then
    let agg := w.aggregation_node.update_states loop.2.2.1 round_idx loop.2.2.2
    .ok { strat := ⟨some loop.2.1, some agg.2⟩,
          train_nodes := loop.1,
          test_nodes := w.test_nodes,
          aggregation_node := agg.1,
          next_op_id := loop.2.2.2 + 1 }
  else
    .error (.backendError "aggregation operation rejected by the backend",
      { w with train_nodes := loop.1, next_op_id := loop.2.2.2 })

/-- Runs `Scaffold.perform_round` for rounds `0, 1, …, r-1` with an
accepting backend (which never raises; the error branch is dead). -/
def runRounds (algo_key : String) (w : FLWorld) : Nat → FLWorld
  | 0 => w
  | r + 1 =>
    match Scaffold.perform_round algo_key (runRounds algo_key w r) r true with
    | .ok w' => w'
    | .error e => e.2

/-- The operation id handed to participant `i`'s train operation of round
`q`, for an initial counter `f0` and `n` participants: every round
consumes `n + 1` ids, participants first, in order. -/
def localKey (f0 n q i : Nat) : Nat := f0 + q * (n + 1) + i

/-- The operation id of round `q`'s aggregation operation. -/
def aggKey (f0 n q : Nat) : Nat := f0 + q * (n + 1) + n

/-- The closed form, proved below, of the train tuple recorded for
participant `i` in round `q` when starting from a fresh strategy: round 0
has no state inputs, and round `q + 1` consumes participant `i`'s own
round-`q` local state and round `q`'s aggregate. -/
def roundTuple (algo_key : String) (nd : TrainDataNode) (f0 n i q : Nat) : TrainTuple :=
  ⟨algo_key, nd.data_manager_key, nd.data_sample_keys,
    if q = 0 then none else some (localKey f0 n (q - 1) i),
    if q = 0 then none else some (aggKey f0 n (q - 1)),
    "train", localKey f0 n q i⟩

/-- The closed form of the aggregation tuple recorded in round `q`. -/
def roundAggTuple (f0 n q : Nat) : AggTuple :=
  ⟨"avg_shared_states", (List.range n).map (fun i => localKey f0 n q i),
    aggKey f0 n q, q⟩

/-- One iteration of the `for test_node in test_data_nodes` loop of
`Scaffold.predict`, acting on the test node at position `k`: filter the
train nodes sharing the test node's identity (`NotImplementedError` when
there are none), take the stored local state of the located train node
(`AssertionError` when no round has stored local states yet), issue the
forward operation on that train node, and append the evaluation record to
the test node. -/
def predictStep (algo_key : String) (round_idx : Nat) (w : FLWorld) (k : Nat) :
    Except (PyError × FLWorld) FLWorld :=
  let t := w.test_nodes.getD k default
  let matching := w.train_nodes.filter (fun tn => tn.node_id = t.node_id)
  if matching.isEmpty then
    .error (.notImplementedError "Cannot test on a node we did not train on for now.", w)
  else
    let node_index := w.train_nodes.findIdx (fun tn => tn.node_id = t.node_id)
    let prev := w.strat.local_states.map (fun ls => ls.getD node_index default)
    match prev with
    | none => .error (.assertionError "previous_local_state is None", w)
    | some p =>
      let train_node := w.train_nodes.getD node_index default
      let out := train_node.compute algo_key
        (some [train_node.data_sample_keys.headD ""]) (some p)
        w.strat.avg_shared_state w.next_op_id
      let t' := { t with tuples := t.tuples ++ [⟨out.2.1.key, round_idx⟩] }
      .ok { w with
        train_nodes := w.train_nodes.set node_index out.1,
        test_nodes := w.test_nodes.set k t',
        next_op_id := w.next_op_id + 1 }

/-- Sequential processing of test-node positions; the first raised
exception aborts the loop. -/
def predictLoop (algo_key : String) (round_idx : Nat) :
    List Nat → FLWorld → Except (PyError × FLWorld) FLWorld
  | [], w => .ok w
  | k :: ks, w =>
    match predictStep algo_key round_idx w k with
    | .ok w' => predictLoop algo_key round_idx ks w'
    | .error e => .error e

/-- Embeds `Scaffold.predict`: processes every test node in order. -/
def Scaffold.predict (algo_key : String) (round_idx : Nat) (w : FLWorld) :
    Except (PyError × FLWorld) FLWorld :=
  predictLoop algo_key round_idx (List.range w.test_nodes.length) w

/-! ## Concrete instances used by witnesses and counterexamples -/

/-- A two-participant world with empty logs and no strategy state. -/
def demoWorld : FLWorld :=
  ⟨⟨none, none⟩,
    [⟨"org-1", "dm-1", ["s1"], "obj", []⟩, ⟨"org-2", "dm-2", ["s2"], "obj", []⟩],
    [],
    ⟨"agg", []⟩,
    0⟩

/-- A one-participant world with empty logs and no strategy state. -/
def soloWorld : FLWorld :=
  ⟨⟨none, none⟩, [⟨"org-1", "dm-1", ["s1"], "obj", []⟩], [], ⟨"agg", []⟩, 0⟩

/-- A world whose only test node matches no train node. -/
def orphanTestWorld : FLWorld :=
  ⟨⟨some [⟨7⟩], some ⟨8⟩⟩,
    [⟨"org-1", "dm-1", ["s1"], "obj", []⟩], [⟨"org-9", ["t1"], []⟩], ⟨"agg", []⟩, 9⟩

/-- A world with one matching test node but no completed round. -/
def earlyPredictWorld : FLWorld :=
  ⟨⟨none, none⟩, [⟨"org-1", "dm-1", ["s1"], "obj", []⟩], [⟨"org-1", ["t1"], []⟩], ⟨"agg", []⟩, 0⟩

/-- Shared state of a participant holding 10 samples with weight update
`[1.0]` (spec 8's weighted-average example). -/
def demoShared10 : ScaffoldSharedState := ⟨[[0]], [[1]], [[0]], 10⟩

/-- Shared state of a participant holding 30 samples with weight update
`[2.0]`. -/
def demoShared30 : ScaffoldSharedState := ⟨[[0]], [[2]], [[0]], 30⟩

/-- Two shared states whose server control variates disagree (`[[1]]`
versus `[[2]]`). -/
def mismatchedStates : List ScaffoldSharedState :=
  [⟨[[0]], [[1]], [[1]], 10⟩, ⟨[[0]], [[2]], [[2]], 30⟩]

/-- The two `client_weight` lines of `Scaffold.avg_shared_states`:
per-client sample counts divided by their total. -/
def clientWeight (ss : List ScaffoldSharedState) : List ℚ :=
  (ss.map (fun s => (s.n_samples : ℚ))).map
    (fun x => x / (ss.map (fun s => (s.n_samples : ℚ))).sum)

/-! ## Generic lemmas -/

theorem except_ok_bind {α β : Type} (a : α) (f : α → Except String β) :
    (Except.ok a >>= f) = f a := rfl

theorem except_bind_ok {α β : Type} {x : Except String α} {f : α → Except String β} {b : β} :
    (x >>= f) = .ok b ↔ ∃ a, x = .ok a ∧ f a = .ok b := by
  cases x <;> simp [Bind.bind, Except.bind]

theorem pyAssert_ok {p : Prop} [Decidable p] {m : String} :
    pyAssert p m = .ok () ↔ p := by
  by_cases h : p <;> simp [pyAssert, h]

theorem getD_range_map {α : Type} (g : Nat → α) (d : α) {n i : Nat} (h : i < n) :
    ((List.range n).map g).getD i d = g i := by
  rw [List.getD_eq_getElem _ _ (by simpa using h)]
  simp

theorem zip_all_eq {α : Type} : ∀ {xs ys : List α}, xs.length = ys.length →
    (∀ p ∈ xs.zip ys, p.1 = p.2) → xs = ys
  | [], [], _, _ => rfl
  | x :: xs, y :: ys, hl, hp => by
    have hx : x = y := hp (x, y) (by simp)
    have : xs = ys := zip_all_eq (by simpa using hl) (fun p hp2 => hp p (by simp [hp2]))
    simp [hx, this]

theorem exceptMap_ok_map {α β : Type} (f : α → Except String β) (g : α → β) :
    ∀ l : List α, (∀ x ∈ l, f x = .ok (g x)) → exceptMap f l = .ok (l.map g)
  | [], _ => rfl
  | x :: xs, h => by
    have hx := h x (by simp)
    have hxs := exceptMap_ok_map f g xs (fun y hy => h y (by simp [hy]))
    simp [exceptMap, hx, hxs, except_ok_bind]

/-! ## Element-wise facts about the numpy model -/

theorem npScale_length (c : ℚ) (xs : NArray) : (npScale c xs).length = xs.length :=
  List.length_map xs _

theorem npScale_getD (c : ℚ) (xs : NArray) {e : Nat} (h : e < xs.length) :
    (npScale c xs).getD e 0 = c * xs.getD e 0 := by
  rw [List.getD_eq_getElem _ _ (by simpa [npScale] using h),
    List.getD_eq_getElem _ _ h]
  simp [npScale]

theorem npAdd_length (xs ys : NArray) : (npAdd xs ys).length = min xs.length ys.length := by
  simp [npAdd]

theorem npAdd_getD (xs ys : NArray) {e : Nat} (h1 : e < xs.length) (h2 : e < ys.length) :
    (npAdd xs ys).getD e 0 = xs.getD e 0 + ys.getD e 0 := by
  rw [List.getD_eq_getElem _ _ (by simp [npAdd]; omega),
    List.getD_eq_getElem _ _ h1, List.getD_eq_getElem _ _ h2]
  simp [npAdd]

theorem foldl_npAdd_length : ∀ (l : List NArray) (acc : NArray),
    (∀ x ∈ l, x.length = acc.length) → (l.foldl npAdd acc).length = acc.length
  | [], _, _ => rfl
  | x :: xs, acc, h => by
    have hx : x.length = acc.length := h x (by simp)
    have step : (npAdd acc x).length = acc.length := by simp [npAdd_length, hx]
    have := foldl_npAdd_length xs (npAdd acc x)
      (fun y hy => by rw [step]; exact h y (by simp [hy]))
    simpa [step] using this

theorem foldl_npAdd_getD : ∀ (l : List NArray) (acc : NArray) (e : Nat),
    (∀ x ∈ l, x.length = acc.length) → e < acc.length →
    (l.foldl npAdd acc).getD e 0 = acc.getD e 0 + (l.map (fun x => x.getD e 0)).sum
  | [], _, _, _, _ => by simp
  | x :: xs, acc, e, h, he => by
    have hx : x.length = acc.length := h x (by simp)
    have step : (npAdd acc x).length = acc.length := by simp [npAdd_length, hx]
    have ih := foldl_npAdd_getD xs (npAdd acc x) e
      (fun y hy => by rw [step]; exact h y (by simp [hy])) (by rw [step]; exact he)
    have hadd : (npAdd acc x).getD e 0 = acc.getD e 0 + x.getD e 0 :=
      npAdd_getD acc x he (by rw [hx]; exact he)
    simp only [List.foldl_cons, ih, hadd, List.map_cons, List.sum_cons]
    ring

theorem npSum0_length {l : List NArray} {m : Nat} (hne : l ≠ [])
    (h : ∀ x ∈ l, x.length = m) : (npSum0 l).length = m := by
  match l, hne with
  | x :: xs, _ =>
    have hx : x.length = m := h x (by simp)
    have : ∀ y ∈ xs, y.length = x.length := fun y hy => by
      rw [hx]; exact h y (by simp [hy])
    simpa [npSum0, hx] using foldl_npAdd_length xs x this

theorem npSum0_getD {l : List NArray} {m : Nat} (e : Nat) (hne : l ≠ [])
    (h : ∀ x ∈ l, x.length = m) (he : e < m) :
    (npSum0 l).getD e 0 = (l.map (fun x => x.getD e 0)).sum := by
  match l, hne with
  | x :: xs, _ =>
    have hx : x.length = m := h x (by simp)
    have hall : ∀ y ∈ xs, y.length = x.length := fun y hy => by
      rw [hx]; exact h y (by simp [hy])
    have := foldl_npAdd_getD xs x e hall (by rw [hx]; exact he)
    simpa [npSum0] using this

/-! ## Soundness of the Scaffold consistency check -/

theorem scvPairLoop_ok : ∀ {l : List (NArray × NArray)},
    scvPairLoop l = .ok () → ∀ p ∈ l, p.1 = p.2 := by
  intro l
  induction l with
  | nil => intro _ p hp; simp at hp
  | cons q rest ih =>
    intro h p hp
    rw [scvPairLoop, except_bind_ok] at h
    obtain ⟨u, hu, hrest⟩ := h
    rcases List.mem_cons.mp hp with hp | hp
    · subst hp; exact pyAssert_ok.mp (by simpa using hu)
    · exact ih hrest p hp

theorem checkLoop_ok : ∀ {l : List ScaffoldSharedState} {s0 : ScaffoldSharedState},
    checkLoop s0 l = .ok () → ∀ s ∈ l,
      s.control_variate_update.length = s0.control_variate_update.length ∧
      s.weight_update.length = s0.weight_update.length ∧
      s.server_control_variate = s0.server_control_variate := by
  intro l
  induction l with
  | nil => intro s0 _ s hs; simp at hs
  | cons t rest ih =>
    intro s0 h s hs
    rw [checkLoop, except_bind_ok] at h
    obtain ⟨u1, hcvu, h⟩ := h
    rw [except_bind_ok] at h
    obtain ⟨u2, hwu, h⟩ := h
    rw [except_bind_ok] at h
    obtain ⟨u3, hscv, h⟩ := h
    rw [except_bind_ok] at h
    obtain ⟨u4, hpairs, hrest⟩ := h
    rcases List.mem_cons.mp hs with hs | hs
    · subst hs
      have hlen : s.server_control_variate.length = s0.server_control_variate.length :=
        pyAssert_ok.mp (by simpa using hscv)
      have hpair : ∀ p ∈ s0.server_control_variate.zip s.server_control_variate, p.1 = p.2 :=
        scvPairLoop_ok (by simpa using hpairs)
      refine ⟨pyAssert_ok.mp (by simpa using hcvu), pyAssert_ok.mp (by simpa using hwu), ?_⟩
      exact (zip_all_eq hlen.symm hpair).symm
    · exact ih hrest s hs

theorem check_shared_states_ok {ss : List ScaffoldSharedState}
    (h : Scaffold.check_shared_states ss = .ok ()) :
    ss ≠ [] ∧
    (∀ s ∈ ss, s.control_variate_update.length = (ss.getD 0 default).control_variate_update.length ∧
      s.weight_update.length = (ss.getD 0 default).weight_update.length ∧
      s.server_control_variate = (ss.getD 0 default).server_control_variate) ∧
    (ss.getD 0 default).control_variate_update.length
      = (ss.getD 0 default).server_control_variate.length ∧
    (ss.getD 0 default).server_control_variate.length
      = (ss.getD 0 default).weight_update.length := by
  match ss with
  | [] => simp [Scaffold.check_shared_states] at h
  | s0 :: rest =>
    rw [Scaffold.check_shared_states, except_bind_ok] at h
    obtain ⟨u, hloop, hfin⟩ := h
    have hfin' := pyAssert_ok.mp (by simpa using hfin)
    exact ⟨by simp, checkLoop_ok hloop, by simpa using hfin'.1, by simpa using hfin'.2⟩

/-! ## The successful form of the aggregation -/

theorem weight_arrays_ok (client_weight : List ℚ) (states : List (List NArray))
    (layer_idx : Nat) (hlen : client_weight.length = states.length) :
    Scaffold.weight_arrays client_weight states layer_idx =
      .ok ((client_weight.zip states).map
        (fun p => npScale p.1 (p.2.getD layer_idx []))) := by
  rw [Scaffold.weight_arrays]
  have : pyAssert (client_weight.length = states.length)
      "n_samples_per_client and states_to_aggregate should have the same length" = .ok () := by
    simpa [pyAssert_ok]
  simp [this, except_ok_bind]

theorem avg_shared_states_ok_form (aggregation_lr : ℚ)
    (s0 : ScaffoldSharedState) (rest : List ScaffoldSharedState)
    (hchk : Scaffold.check_shared_states (s0 :: rest) = .ok ()) :
    Scaffold.avg_shared_states aggregation_lr (s0 :: rest) = .ok
      ⟨(List.range s0.control_variate_update.length).map (fun k =>
          npSum0 (((clientWeight (s0 :: rest)).zip
              ((s0 :: rest).map (fun s => s.control_variate_update))).map
              (fun p => npScale p.1 (p.2.getD k []))
            ++ [s0.server_control_variate.getD k []])),
        (List.range s0.weight_update.length).map (fun k =>
          npScale aggregation_lr
            (npSum0 (((clientWeight (s0 :: rest)).zip
                ((s0 :: rest).map (fun s => s.weight_update))).map
                (fun p => npScale p.1 (p.2.getD k [])))))⟩ := by
  have hcw : (clientWeight (s0 :: rest)).length = (s0 :: rest).length := by
    simp [clientWeight]
  have hupd : Scaffold.update_server_control_variate s0.server_control_variate
      ((s0 :: rest).map (fun s => s.control_variate_update)) (clientWeight (s0 :: rest)) =
      .ok ((List.range s0.control_variate_update.length).map (fun k =>
        npSum0 (((clientWeight (s0 :: rest)).zip
            ((s0 :: rest).map (fun s => s.control_variate_update))).map
            (fun p => npScale p.1 (p.2.getD k []))
          ++ [s0.server_control_variate.getD k []]))) := by
    rw [List.map_cons, Scaffold.update_server_control_variate]
    rw [← List.map_cons (fun s => s.control_variate_update) s0 rest]
    refine exceptMap_ok_map _ _ _ (fun k _ => ?_)
    rw [weight_arrays_ok _ _ _ (by simpa using hcw), except_ok_bind]
    rfl
  have havg : Scaffold.avg_weight_update aggregation_lr
      ((s0 :: rest).map (fun s => s.weight_update)) (clientWeight (s0 :: rest)) =
      .ok ((List.range s0.weight_update.length).map (fun k =>
        npScale aggregation_lr
          (npSum0 (((clientWeight (s0 :: rest)).zip
              ((s0 :: rest).map (fun s => s.weight_update))).map
              (fun p => npScale p.1 (p.2.getD k [])))))) := by
    rw [List.map_cons, Scaffold.avg_weight_update]
    rw [← List.map_cons (fun s => s.weight_update) s0 rest]
    refine exceptMap_ok_map _ _ _ (fun k _ => ?_)
    rw [weight_arrays_ok _ _ _ (by simpa using hcw), except_ok_bind]
    rfl
  have key : Scaffold.avg_shared_states aggregation_lr (s0 :: rest) =
      (Scaffold.check_shared_states (s0 :: rest) >>= fun _ => do
        let scv ← Scaffold.update_server_control_variate s0.server_control_variate
          ((s0 :: rest).map (fun s => s.control_variate_update)) (clientWeight (s0 :: rest))
        let awu ← Scaffold.avg_weight_update aggregation_lr
          ((s0 :: rest).map (fun s => s.weight_update)) (clientWeight (s0 :: rest))
        pure ⟨scv, awu⟩) := rfl
  rw [key, hchk, except_ok_bind, hupd, except_ok_bind, havg]
  rfl

theorem weighted_layers_spec (cw : List ℚ) (states : List (List NArray))
    (k e mk : Nat) (hne : states ≠ []) (hlen : cw.length = states.length)
    (hst : ∀ st ∈ states, (st.getD k []).length = mk) (he : e < mk) :
    (npSum0 ((cw.zip states).map (fun p => npScale p.1 (p.2.getD k [])))).length = mk ∧
    (npSum0 ((cw.zip states).map (fun p => npScale p.1 (p.2.getD k [])))).getD e 0 =
      ((cw.zip states).map (fun p => p.1 * ((p.2.getD k []).getD e 0))).sum := by
  have hznel : (cw.zip states).length = states.length := by
    simp [List.length_zip, hlen]
  have hWne : (cw.zip states).map (fun p => npScale p.1 (p.2.getD k [])) ≠ [] := by
    intro hcon
    have := congrArg List.length hcon
    simp [hznel] at this
    exact hne this
  have hWlen : ∀ x ∈ (cw.zip states).map (fun p => npScale p.1 (p.2.getD k [])),
      x.length = mk := by
    intro x hx
    obtain ⟨p, hp, rfl⟩ := List.mem_map.mp hx
    rw [npScale_length]
    exact hst p.2 (List.of_mem_zip hp).2
  refine ⟨npSum0_length hWne hWlen, ?_⟩
  rw [npSum0_getD e hWne hWlen he, List.map_map]
  refine congrArg List.sum (List.map_congr_left (fun p hp => ?_))
  have : e < (p.2.getD k []).length := by
    rw [hst p.2 (List.of_mem_zip hp).2]; exact he
  simp only [Function.comp_apply]
  exact npScale_getD _ _ this

/-- C4: the aggregation's averaged weight update at layer `k` is the
learning rate times the sample-weighted mean of the participants' weight
updates at layer `k`. -/
theorem scaffold_avg_weight_update_is_weighted_mean
    (lr : ℚ) (ss : List ScaffoldSharedState) (L : Nat) (m : Nat → Nat)
    (hchk : Scaffold.check_shared_states ss = .ok ())
    (hL : ∀ s ∈ ss, s.weight_update.length = L)
    (hm : ∀ s ∈ ss, ∀ k, k < L → ((s.weight_update).getD k []).length = m k) :
    ∃ st, Scaffold.avg_shared_states lr ss = .ok st ∧
      st.avg_weight_update.length = L ∧
      ∀ k, k < L → ∀ e, e < m k →
        (st.avg_weight_update.getD k []).getD e 0 =
          lr * (ss.map (fun s =>
            ((s.n_samples : ℚ) / (ss.map (fun t => (t.n_samples : ℚ))).sum) *
              ((s.weight_update.getD k []).getD e 0))).sum := by
  obtain ⟨s0, rest, rfl⟩ : ∃ s0 rest, ss = s0 :: rest := by
    match ss, (check_shared_states_ok hchk).1 with
    | s0 :: rest, _ => exact ⟨s0, rest, rfl⟩
  have hform := avg_shared_states_ok_form lr s0 rest hchk
  refine ⟨_, hform, ?_, ?_⟩
  · simp [hL s0 (by simp)]
  · intro k hk e he
    have hkL : k < s0.weight_update.length := by rw [hL s0 (by simp)]; exact hk
    have hwulen : (clientWeight (s0 :: rest)).length
        = ((s0 :: rest).map (fun s => s.weight_update)).length := by
      simp [clientWeight]
    have hwust : ∀ st ∈ (s0 :: rest).map (fun s => s.weight_update),
        (st.getD k []).length = m k := by
      intro st hst
      obtain ⟨s, hs, rfl⟩ := List.mem_map.mp hst
      exact hm s hs k hk
    have hW := weighted_layers_spec (clientWeight (s0 :: rest))
      ((s0 :: rest).map (fun s => s.weight_update)) k e (m k) (by simp) hwulen hwust he
    rw [getD_range_map _ _ hkL, npScale_getD _ _ (by rw [hW.1]; exact he), hW.2]
    congr 1
    have hcw : clientWeight (s0 :: rest) = (s0 :: rest).map
        (fun s => (s.n_samples : ℚ) / ((s0 :: rest).map (fun t => (t.n_samples : ℚ))).sum) := by
      rw [clientWeight, List.map_map]
      rfl
    rw [hcw, List.zip_map', List.map_map]
    rfl

/-- C5: the aggregation's new server control variate at layer `k` is the
old server control variate plus the sample-weighted mean of the
participants' control-variate updates at layer `k`; the aggregation
learning rate `lr` is arbitrary and does not appear. -/
theorem scaffold_server_control_variate_no_lr
    (lr : ℚ) (ss : List ScaffoldSharedState) (L : Nat) (m : Nat → Nat)
    (hchk : Scaffold.check_shared_states ss = .ok ())
    (hL : ∀ s ∈ ss, s.control_variate_update.length = L)
    (hm : ∀ s ∈ ss, ∀ k, k < L → ((s.control_variate_update).getD k []).length = m k)
    (hsv : ∀ k, k < L → (((ss.getD 0 default).server_control_variate).getD k []).length = m k) :
    ∃ st, Scaffold.avg_shared_states lr ss = .ok st ∧
      st.server_control_variate.length = L ∧
      ∀ k, k < L → ∀ e, e < m k →
        (st.server_control_variate.getD k []).getD e 0 =
          ((ss.getD 0 default).server_control_variate.getD k []).getD e 0 +
            (ss.map (fun s =>
              ((s.n_samples : ℚ) / (ss.map (fun t => (t.n_samples : ℚ))).sum) *
                ((s.control_variate_update.getD k []).getD e 0))).sum := by
  obtain ⟨s0, rest, rfl⟩ : ∃ s0 rest, ss = s0 :: rest := by
    match ss, (check_shared_states_ok hchk).1 with
    | s0 :: rest, _ => exact ⟨s0, rest, rfl⟩
  have hform := avg_shared_states_ok_form lr s0 rest hchk
  refine ⟨_, hform, ?_, ?_⟩
  · simp [hL s0 (by simp)]
  · intro k hk e he
    have hkL : k < s0.control_variate_update.length := by rw [hL s0 (by simp)]; exact hk
    have hcvlen : (clientWeight (s0 :: rest)).length
        = ((s0 :: rest).map (fun s => s.control_variate_update)).length := by
      simp [clientWeight]
    have hcvst : ∀ st ∈ (s0 :: rest).map (fun s => s.control_variate_update),
        (st.getD k []).length = m k := by
      intro st hst
      obtain ⟨s, hs, rfl⟩ := List.mem_map.mp hst
      exact hm s hs k hk
    have hW := weighted_layers_spec (clientWeight (s0 :: rest))
      ((s0 :: rest).map (fun s => s.control_variate_update)) k e (m k) (by simp) hcvlen hcvst he
    have hs0 : ((s0 :: rest : List ScaffoldSharedState).getD 0 default) = s0 := rfl
    have hsvk : (s0.server_control_variate.getD k []).length = m k := by
      have := hsv k hk
      rwa [hs0] at this
    set W := ((clientWeight (s0 :: rest)).zip
      ((s0 :: rest).map (fun s => s.control_variate_update))).map
      (fun p => npScale p.1 (p.2.getD k [])) with hWdef
    have hWlen : ∀ x ∈ W, x.length = m k := by
      intro x hx
      obtain ⟨p, hp, rfl⟩ := List.mem_map.mp hx
      rw [npScale_length]
      exact hcvst p.2 (List.of_mem_zip hp).2
    have happlen : ∀ x ∈ W ++ [s0.server_control_variate.getD k []], x.length = m k := by
      intro x hx
      rcases List.mem_append.mp hx with hx | hx
      · exact hWlen x hx
      · rw [List.mem_singleton.mp hx]
        exact hsvk
    have happne : W ++ [s0.server_control_variate.getD k []] ≠ [] := by simp
    rw [getD_range_map _ _ hkL, npSum0_getD e happne happlen he]
    rw [List.map_append, List.sum_append]
    have hsum : (W.map (fun x => x.getD e 0)).sum =
        ((s0 :: rest).map (fun s =>
          ((s.n_samples : ℚ) / ((s0 :: rest).map (fun t => (t.n_samples : ℚ))).sum) *
            ((s.control_variate_update.getD k []).getD e 0))).sum := by
      rw [hWdef, List.map_map]
      have step : ((clientWeight (s0 :: rest)).zip
          ((s0 :: rest).map (fun s => s.control_variate_update))).map
          ((fun x => x.getD e 0) ∘ (fun p => npScale p.1 (p.2.getD k []))) =
          ((clientWeight (s0 :: rest)).zip
            ((s0 :: rest).map (fun s => s.control_variate_update))).map
            (fun p => p.1 * ((p.2.getD k []).getD e 0)) := by
        refine List.map_congr_left (fun p hp => ?_)
        have : e < (p.2.getD k []).length := by
          rw [hcvst p.2 (List.of_mem_zip hp).2]; exact he
        simp only [Function.comp_apply]
        exact npScale_getD _ _ this
      rw [step]
      have hcw : clientWeight (s0 :: rest) = (s0 :: rest).map
          (fun s => (s.n_samples : ℚ) / ((s0 :: rest).map (fun t => (t.n_samples : ℚ))).sum) := by
        rw [clientWeight, List.map_map]
        rfl
      rw [hcw, List.zip_map', List.map_map]
      rfl
    rw [hsum, hs0]
    simp [add_comm]

theorem getD_mem {α : Type} {l : List α} {i : Nat} (d : α) (h : i < l.length) :
    l.getD i d ∈ l := by
  rw [List.getD_eq_getElem _ _ h]
  exact List.getElem_mem h

/-- C6: violating the aggregation precondition — an empty participant
list, per-participant sequence lengths that disagree, or server control
variates that differ at some layer — makes `avg_shared_states` fail with
an error and produce no output. -/
theorem scaffold_aggregation_rejects_inconsistency (lr : ℚ)
    (ss : List ScaffoldSharedState)
    (hviol : ss = [] ∨
      (∃ i, ∃ j, i < ss.length ∧ j < ss.length ∧
        ((ss.getD i default).control_variate_update.length
            ≠ (ss.getD j default).control_variate_update.length ∨
          (ss.getD i default).weight_update.length
            ≠ (ss.getD j default).weight_update.length ∨
          (ss.getD i default).server_control_variate.length
            ≠ (ss.getD j default).server_control_variate.length)) ∨
      (∃ i, ∃ j, ∃ k, i < ss.length ∧ j < ss.length ∧
        k < (ss.getD i default).server_control_variate.length ∧
        k < (ss.getD j default).server_control_variate.length ∧
        (ss.getD i default).server_control_variate.getD k []
          ≠ (ss.getD j default).server_control_variate.getD k [])) :
    ∃ msg, Scaffold.avg_shared_states lr ss = .error msg := by
  cases hc : Scaffold.check_shared_states ss with
  | error msg =>
    refine ⟨msg, ?_⟩
    have key : Scaffold.avg_shared_states lr ss =
        (Scaffold.check_shared_states ss >>= fun _ =>
          (fun clw => match ss with
            | [] => Except.error "IndexError: list index out of range"
            | s0 :: _ => do
              let scv ← Scaffold.update_server_control_variate s0.server_control_variate
                (ss.map (fun s => s.control_variate_update)) clw
              let awu ← Scaffold.avg_weight_update lr
                (ss.map (fun s => s.weight_update)) clw
              pure ⟨scv, awu⟩) (clientWeight ss)) := rfl
    rw [key, hc]
    rfl
  | ok u =>
    exfalso
    obtain ⟨hne, hall, _, _⟩ := check_shared_states_ok (by cases u; exact hc)
    rcases hviol with hviol | hviol | hviol
    · exact hne hviol
    · obtain ⟨i, j, hi, hj, hmis⟩ := hviol
      have hi' := hall _ (getD_mem default hi)
      have hj' := hall _ (getD_mem default hj)
      rcases hmis with hmis | hmis | hmis
      · exact hmis (hi'.1.trans hj'.1.symm)
      · exact hmis (hi'.2.1.trans hj'.2.1.symm)
      · exact hmis (by rw [hi'.2.2, hj'.2.2])
    · obtain ⟨i, j, k, hi, hj, _, _, hmis⟩ := hviol
      have hi' := (hall _ (getD_mem default hi)).2.2
      have hj' := (hall _ (getD_mem default hj)).2.2
      exact hmis (by rw [hi', hj'])

/-- Witness for C4 (spec 8's example): sample counts 10 and 30 with
single-layer weight updates `[1]` and `[2]` at learning rate 1 average to
`7/4`. -/
theorem scaffold_avg_weight_update_witness :
    ∃ st, Scaffold.avg_shared_states 1 [demoShared10, demoShared30] = .ok st ∧
      (st.avg_weight_update.getD 0 []).getD 0 0 = 7 / 4 := by
  obtain ⟨st, hok, _, hval⟩ := scaffold_avg_weight_update_is_weighted_mean 1
    [demoShared10, demoShared30] 1 (fun _ => 1) (by rfl) (by decide) (by decide)
  refine ⟨st, hok, ?_⟩
  rw [hval 0 (by decide) 0 (by decide)]
  norm_num [demoShared10, demoShared30]

/-- Witness for C5: on the same two participants the new server control
variate is `0 + (1/4) * 0 + (3/4) * 0 = 0`, for any learning rate 1. -/
theorem scaffold_server_control_variate_witness :
    ∃ st, Scaffold.avg_shared_states 1 [demoShared10, demoShared30] = .ok st ∧
      (st.server_control_variate.getD 0 []).getD 0 0 = 0 := by
  obtain ⟨st, hok, _, hval⟩ := scaffold_server_control_variate_no_lr 1
    [demoShared10, demoShared30] 1 (fun _ => 1) (by rfl) (by decide) (by decide) (by decide)
  refine ⟨st, hok, ?_⟩
  rw [hval 0 (by decide) 0 (by decide)]
  norm_num [demoShared10, demoShared30]

/-- Witness for C6: two participants whose server control variates are
`[[1]]` and `[[2]]` make the aggregation fail. -/
theorem scaffold_aggregation_rejects_witness :
    ∃ msg, Scaffold.avg_shared_states 1 mismatchedStates = .error msg :=
  scaffold_aggregation_rejects_inconsistency 1 mismatchedStates
    (Or.inr (Or.inr ⟨0, 1, 0, by decide, by decide, by decide, by decide, by decide⟩))

/-! ## Index generator claims -/

/-- C9: construction fails on a negative `n_samples` or a provided
negative `batch_size`; otherwise it succeeds, with the effective batch
size equal to `n_samples` when `batch_size` is unset or larger than
`n_samples`, and equal to `batch_size` otherwise. -/
theorem indexGenerator_create_validation (n_samples : Int) (batch_size : Option Int)
    (num_updates : Int) (sh dl : Bool) (seed : Int) :
    (n_samples < 0 →
      ∃ msg, BaseIndexGenerator.create n_samples batch_size num_updates sh dl seed
        = .error msg) ∧
    (∀ b, batch_size = some b → b < 0 → 0 ≤ n_samples →
      ∃ msg, BaseIndexGenerator.create n_samples batch_size num_updates sh dl seed
        = .error msg) ∧
    (0 ≤ n_samples → batch_size = none →
      ∃ g, BaseIndexGenerator.create n_samples batch_size num_updates sh dl seed
        = .ok g ∧ g.batch_size = n_samples) ∧
    (∀ b, batch_size = some b → 0 ≤ b → n_samples < b → 0 ≤ n_samples →
      ∃ g, BaseIndexGenerator.create n_samples batch_size num_updates sh dl seed
        = .ok g ∧ g.batch_size = n_samples) ∧
    (∀ b, batch_size = some b → 0 ≤ b → b ≤ n_samples → 0 ≤ n_samples →
      ∃ g, BaseIndexGenerator.create n_samples batch_size num_updates sh dl seed
        = .ok g ∧ g.batch_size = b) := by
  refine ⟨?_, ?_, ?_, ?_, ?_⟩
  · intro h
    exact ⟨_, by rw [BaseIndexGenerator.create.eq_def, if_pos h]⟩
  · intro b hb hbneg hns
    subst hb
    refine ⟨"batch_size must be non negative.", ?_⟩
    rw [BaseIndexGenerator.create.eq_def, if_neg (by omega)]
    simp only [if_pos hbneg]
  · intro hns hb
    subst hb
    refine ⟨⟨n_samples, n_samples, num_updates, sh, dl, seed, 0, 0⟩, ?_, rfl⟩
    rw [BaseIndexGenerator.create.eq_def, if_neg (by omega)]
  · intro b hb hbpos hlt hns
    subst hb
    refine ⟨⟨n_samples, n_samples, num_updates, sh, dl, seed, 0, 0⟩, ?_, rfl⟩
    rw [BaseIndexGenerator.create.eq_def, if_neg (by omega)]
    simp only [if_neg (by omega : ¬ b < 0), if_pos hlt]
  · intro b hb hbpos hle hns
    subst hb
    refine ⟨⟨n_samples, b, num_updates, sh, dl, seed, 0, 0⟩, ?_, rfl⟩
    rw [BaseIndexGenerator.create.eq_def, if_neg (by omega)]
    simp only [if_neg (by omega : ¬ b < 0), if_neg (by omega : ¬ b > n_samples)]

/-- Witness for C9: `n_samples = 5`, `batch_size = 3` succeeds with an
effective batch size of 3. -/
theorem indexGenerator_create_validation_witness :
    ∃ g, BaseIndexGenerator.create 5 (some 3) 7 true true 42 = .ok g ∧
      g.batch_size = 3 :=
  (indexGenerator_create_validation 5 (some 3) 7 true true 42).2.2.2.2 3 rfl
    (by decide) (by decide) (by decide)

/-- Counterexample to C8 as stated: constructing the index generator with
`num_updates = 0` does not fail — it succeeds and stores the value. -/
theorem indexGenerator_num_updates_unchecked :
    ∃ g, BaseIndexGenerator.create 10 (some 2) 0 true true 42 = .ok g ∧
      g.num_updates = 0 :=
  ⟨⟨10, 2, 0, true, true, 42, 0, 0⟩, rfl, rfl⟩

/-- C8 (amended): `BaseIndexGenerator.__init__` performs no validation of
`num_updates` — with non-negative `n_samples` and a valid batch size,
construction succeeds even for non-positive `num_updates`, which is
stored unchanged. -/
theorem indexGenerator_create_accepts_nonpositive_updates (n_samples : Int)
    (batch_size : Option Int) (num_updates : Int) (sh dl : Bool) (seed : Int)
    (hnu : num_updates ≤ 0) (hns : 0 ≤ n_samples)
    (hbs : ∀ b, batch_size = some b → 0 ≤ b) :
    ∃ g, BaseIndexGenerator.create n_samples batch_size num_updates sh dl seed
      = .ok g ∧ g.num_updates = num_updates := by
  rw [BaseIndexGenerator.create.eq_def, if_neg (by omega)]
  match batch_size with
  | none => exact ⟨_, rfl, rfl⟩
  | some b =>
    have hb := hbs b rfl
    simp only [if_neg (by omega : ¬ b < 0)]
    by_cases hlt : b > n_samples
    · simp only [if_pos hlt]
      exact ⟨_, rfl, rfl⟩
    · simp only [if_neg hlt]
      exact ⟨_, rfl, rfl⟩

/-- Witness for the amended C8, at `num_updates = -10`. -/
theorem indexGenerator_accepts_nonpositive_witness :
    ∃ g, BaseIndexGenerator.create 10 (some 2) (-10) true true 42 = .ok g ∧
      g.num_updates = -10 :=
  indexGenerator_create_accepts_nonpositive_updates 10 (some 2) (-10) true true 42
    (by decide) (by decide) (fun b hb => by cases hb; decide)

/-! ## Participant node claims -/

/-- C10: `TrainDataNode.compute` returns a `LocalStateRef` and a
`SharedStateRef` that both carry the freshly generated operation id, and
appends exactly one record to the node's own log, whose
`composite_traintuple_id` is that id. -/
theorem trainDataNode_compute_refs_and_log (node : TrainDataNode) (a : String)
    (dsk : Option (List String)) (ls : Option LocalStateRef)
    (ss : Option SharedStateRef) (op_id : Nat) :
    ((node.compute a dsk ls ss op_id).2.1).key = op_id ∧
    ((node.compute a dsk ls ss op_id).2.2).key = op_id ∧
    ((node.compute a dsk ls ss op_id).1).tuples.length = node.tuples.length + 1 ∧
    ((node.compute a dsk ls ss op_id).1).tuples.getLast? =
      some ⟨a, node.data_manager_key, dsk.getD node.data_sample_keys,
        ls.map (fun r => r.key), ss.map (fun r => r.key), "train", op_id⟩ := by
  refine ⟨rfl, rfl, by simp [TrainDataNode.compute], ?_⟩
  simp [TrainDataNode.compute]

/-! ## Strategy round claims -/

/-- C2: when the backend rejects the aggregation operation of
`perform_round`, the strategy's stored local-state list and shared-state
reference keep their pre-round values (the replacements happen only after
the aggregation call), and the aggregator log is untouched. -/
theorem perform_round_rejected_keeps_strategy_state (a : String) (w : FLWorld)
    (round_idx : Nat) :
    ∃ e w', Scaffold.perform_round a w round_idx false = .error (e, w') ∧
      w'.strat.local_states = w.strat.local_states ∧
      w'.strat.avg_shared_state = w.strat.avg_shared_state ∧
      w'.aggregation_node = w.aggregation_node :=
  ⟨_, _, rfl, rfl, rfl, rfl⟩

/-- Counterexample to C3 as stated: re-invoking `perform_round` for the
same round index 0 on the already-advanced state appends a second record
to the participant's log (and a second aggregation record). -/
theorem perform_round_retry_duplicates :
    ∃ w1 w2, Scaffold.perform_round "algo" soloWorld 0 true = .ok w1 ∧
      Scaffold.perform_round "algo" w1 0 true = .ok w2 ∧
      (w1.train_nodes.getD 0 default).tuples.length = 1 ∧
      (w2.train_nodes.getD 0 default).tuples.length = 2 ∧
      w1.aggregation_node.tuples.length = 1 ∧
      w2.aggregation_node.tuples.length = 2 :=
  ⟨_, _, rfl, rfl, rfl, rfl, rfl, rfl⟩

theorem roundTrainLoop_spec (a : String) (pl : Option (List LocalStateRef))
    (sh : Option SharedStateRef) :
    ∀ (nodes : List TrainDataNode) (i f : Nat),
      (roundTrainLoop a pl sh nodes i f).2.2.2 = f + nodes.length ∧
      (roundTrainLoop a pl sh nodes i f).1.length = nodes.length ∧
      (roundTrainLoop a pl sh nodes i f).2.1 =
        (List.range nodes.length).map (fun j => (⟨f + j⟩ : LocalStateRef)) ∧
      (roundTrainLoop a pl sh nodes i f).2.2.1 =
        (List.range nodes.length).map (fun j => (⟨f + j⟩ : SharedStateRef)) ∧
      ∀ j, j < nodes.length →
        (roundTrainLoop a pl sh nodes i f).1.getD j default =
          { nodes.getD j default with tuples := (nodes.getD j default).tuples ++
            [⟨a, (nodes.getD j default).data_manager_key,
              (nodes.getD j default).data_sample_keys,
              pl.map (fun ls => (ls.getD (i + j) default).key),
              sh.map (fun r => r.key), "train", f + j⟩] }
  | [], i, f => by simp [roundTrainLoop]
  | node :: rest, i, f => by
    obtain ⟨ih1, ih2, ih3, ih4, ih5⟩ := roundTrainLoop_spec a pl sh rest (i + 1) (f + 1)
    refine ⟨?_, ?_, ?_, ?_, ?_⟩
    · simp only [roundTrainLoop, ih1, List.length_cons]
      omega
    · simp only [roundTrainLoop, List.length_cons, ih2]
    · simp only [roundTrainLoop, ih3, List.length_cons, List.range_succ_eq_map,
        List.map_cons, List.map_map]
      refine congrArg₂ List.cons (by simp [TrainDataNode.compute])
        (List.map_congr_left (fun j _ => ?_))
      simp only [Function.comp_apply]
      exact congrArg LocalStateRef.mk (by omega)
    · simp only [roundTrainLoop, ih4, List.length_cons, List.range_succ_eq_map,
        List.map_cons, List.map_map]
      refine congrArg₂ List.cons (by simp [TrainDataNode.compute])
        (List.map_congr_left (fun j _ => ?_))
      simp only [Function.comp_apply]
      exact congrArg SharedStateRef.mk (by omega)
    · intro j hj
      match j with
      | 0 =>
        simp [roundTrainLoop, TrainDataNode.compute, Option.map_map]
        rfl
      | j + 1 =>
        have hj' : j < rest.length := by simpa using hj
        have := ih5 j hj'
        simp only [roundTrainLoop, List.getD_cons_succ, this]
        have harg1 : i + 1 + j = i + (j + 1) := by omega
        have harg2 : f + 1 + j = f + (j + 1) := by omega
        rw [harg1, harg2]

theorem perform_round_ok_spec (a : String) (w : FLWorld) (round_idx : Nat) :
    ∃ w', Scaffold.perform_round a w round_idx true = .ok w' ∧
      w'.strat.local_states = some ((List.range w.train_nodes.length).map
        (fun j => (⟨w.next_op_id + j⟩ : LocalStateRef))) ∧
      w'.strat.avg_shared_state = some ⟨w.next_op_id + w.train_nodes.length⟩ ∧
      w'.next_op_id = w.next_op_id + w.train_nodes.length + 1 ∧
      w'.test_nodes = w.test_nodes ∧
      w'.train_nodes.length = w.train_nodes.length ∧
      (∀ j, j < w.train_nodes.length →
        w'.train_nodes.getD j default =
          { w.train_nodes.getD j default with
            tuples := (w.train_nodes.getD j default).tuples ++
              [⟨a, (w.train_nodes.getD j default).data_manager_key,
                (w.train_nodes.getD j default).data_sample_keys,
                w.strat.local_states.map (fun ls => (ls.getD j default).key),
                w.strat.avg_shared_state.map (fun r => r.key),
                "train", w.next_op_id + j⟩] }) ∧
      w'.aggregation_node.tuples = w.aggregation_node.tuples ++
        [⟨"avg_shared_states",
          (List.range w.train_nodes.length).map (fun j => w.next_op_id + j),
          w.next_op_id + w.train_nodes.length, round_idx⟩] := by
  obtain ⟨h1, h2, h3, h4, h5⟩ := roundTrainLoop_spec a w.strat.local_states
    w.strat.avg_shared_state w.train_nodes 0 w.next_op_id
  refine ⟨_, rfl, ?_, ?_, ?_, rfl, ?_, ?_, ?_⟩
  · simp only [Scaffold.perform_round, if_pos rfl]
    simp [h3]
  · simp only [Scaffold.perform_round, if_pos rfl]
    simp [AggregationNode.update_states, h1]
  · simp only [Scaffold.perform_round, if_pos rfl]
    simp [h1]
  · simp only [Scaffold.perform_round, if_pos rfl]
    simpa using h2
  · intro j hj
    simp only [Scaffold.perform_round, if_pos rfl]
    simpa using h5 j hj
  · simp only [Scaffold.perform_round, if_pos rfl]
    simp [AggregationNode.update_states, h1, h4, List.map_map]

/-- C3 (amended): `perform_round` is not idempotent under retries — every
invocation, including a re-invocation for the same round index on the
already-advanced state, appends exactly one fresh train record to every
participant node's log and one fresh record to the aggregator's log. -/
theorem perform_round_appends_every_invocation (a : String) (w : FLWorld)
    (round_idx : Nat) :
    ∃ w', Scaffold.perform_round a w round_idx true = .ok w' ∧
      w'.train_nodes.map (fun nd => nd.tuples.length) =
        w.train_nodes.map (fun nd => nd.tuples.length + 1) ∧
      w'.aggregation_node.tuples.length = w.aggregation_node.tuples.length + 1 := by
  obtain ⟨w', hok, _, _, _, _, hlen, hnodes, hagg⟩ := perform_round_ok_spec a w round_idx
  refine ⟨w', hok, ?_, by simp [hagg]⟩
  refine List.ext_getElem (by simp [hlen]) ?_
  intro j hj1 hj2
  have hjlt : j < w.train_nodes.length := by simpa using hj2
  have hw' : w'.train_nodes.getD j default = _ := hnodes j hjlt
  have hl : j < w'.train_nodes.length := by rw [hlen]; exact hjlt
  rw [List.getElem_map, List.getElem_map]
  have e1 : w'.train_nodes[j] = w'.train_nodes.getD j default :=
    (List.getD_eq_getElem _ _ hl).symm
  have e2 : w.train_nodes[j] = w.train_nodes.getD j default :=
    (List.getD_eq_getElem _ _ hjlt).symm
  rw [e1, e2, hw']
  simp

theorem runRounds_spec (a : String) (w0 : FLWorld) (h0 : w0.strat = ⟨none, none⟩) :
    ∀ r : Nat,
      (runRounds a w0 r).train_nodes.length = w0.train_nodes.length ∧
      (runRounds a w0 r).next_op_id
        = w0.next_op_id + r * (w0.train_nodes.length + 1) ∧
      (runRounds a w0 r).strat.local_states =
        (if r = 0 then none else
          some ((List.range w0.train_nodes.length).map
            (fun j => (⟨localKey w0.next_op_id w0.train_nodes.length (r - 1) j⟩ :
              LocalStateRef)))) ∧
      (runRounds a w0 r).strat.avg_shared_state =
        (if r = 0 then none else
          some ⟨aggKey w0.next_op_id w0.train_nodes.length (r - 1)⟩) ∧
      (∀ i, i < w0.train_nodes.length →
        (runRounds a w0 r).train_nodes.getD i default =
          { w0.train_nodes.getD i default with
            tuples := (w0.train_nodes.getD i default).tuples ++
              (List.range r).map (fun q =>
                roundTuple a (w0.train_nodes.getD i default) w0.next_op_id
                  w0.train_nodes.length i q) }) ∧
      (runRounds a w0 r).aggregation_node.tuples =
        w0.aggregation_node.tuples ++
          (List.range r).map (fun q =>
            roundAggTuple w0.next_op_id w0.train_nodes.length q)
  | 0 => by
    refine ⟨rfl, by simp [runRounds], ?_, ?_, ?_, by simp [runRounds]⟩
    · simp [runRounds, h0]
    · simp [runRounds, h0]
    · intro i _
      simp [runRounds]
  | r + 1 => by
    obtain ⟨ih1, ih2, ih3, ih4, ih5, ih6⟩ := runRounds_spec a w0 h0 r
    obtain ⟨w', hok, hlocal, havg, hnext, _, hlen, hnodes, hagg⟩ :=
      perform_round_ok_spec a (runRounds a w0 r) r
    have hstep : runRounds a w0 (r + 1) = w' := by
      simp only [runRounds, hok]
    refine ⟨?_, ?_, ?_, ?_, ?_, ?_⟩
    · rw [hstep, hlen, ih1]
    · rw [hstep, hnext, ih2, ih1]
      ring
    · rw [hstep, hlocal, ih1, ih2]
      simp only [Nat.add_eq, localKey, if_neg (Nat.succ_ne_zero r), Nat.add_sub_cancel]
    · rw [hstep, havg, ih1, ih2]
      simp only [aggKey, if_neg (Nat.succ_ne_zero r), Nat.add_sub_cancel]
    · intro i hi
      have hi' : i < (runRounds a w0 r).train_nodes.length := by rw [ih1]; exact hi
      rw [hstep, hnodes i hi', ih5 i hi, ih3, ih4, ih2]
      rcases Nat.eq_zero_or_pos r with hr | hr
      · subst hr
        rw [show List.range 1 = [0] from rfl]
        simp [roundTuple, localKey]
      · have hrne : r ≠ 0 := by omega
        simp [List.range_succ, roundTuple, if_neg hrne, localKey, aggKey,
          List.getElem?_range hi]
    · rw [hstep, hagg, ih6, ih1, ih2]
      simp [List.range_succ, roundAggTuple, localKey, aggKey]

theorem localKey_inj {f0 n q1 i1 q2 i2 : Nat} (h1 : i1 < n) (h2 : i2 < n)
    (h : localKey f0 n q1 i1 = localKey f0 n q2 i2) : q1 = q2 ∧ i1 = i2 := by
  rw [localKey, localKey, Nat.add_assoc f0, Nat.add_assoc f0] at h
  have h' : q1 * (n + 1) + i1 = q2 * (n + 1) + i2 := Nat.add_left_cancel h
  have hm1 : (q1 * (n + 1) + i1) % (n + 1) = i1 := by
    rw [Nat.add_comm, Nat.add_mul_mod_self_right]
    exact Nat.mod_eq_of_lt (by omega)
  have hm2 : (q2 * (n + 1) + i2) % (n + 1) = i2 := by
    rw [Nat.add_comm, Nat.add_mul_mod_self_right]
    exact Nat.mod_eq_of_lt (by omega)
  have hii : i1 = i2 := by rw [← hm1, ← hm2, h']
  subst hii
  have hq : q1 * (n + 1) = q2 * (n + 1) := by omega
  exact ⟨Nat.eq_of_mul_eq_mul_right (by omega) hq, rfl⟩

/-- C1: starting from a fresh strategy and running rounds `0 … r`, the
train record of participant `i` in round `q` consumes exactly participant
`i`'s own round-`q-1` local-state reference and round-`q-1`'s aggregation
output (both absent in round 0), the produced local states are stored in
participant order, and a round-`q` local-state input can never be another
participant's reference. -/
theorem scaffold_round_threading (a : String) (w0 : FLWorld) (r q i : Nat)
    (h0 : w0.strat = ⟨none, none⟩) (hq : q ≤ r) (hi : i < w0.train_nodes.length)
    (hnode0 : (w0.train_nodes.getD i default).tuples = [])
    (hagg0 : w0.aggregation_node.tuples = []) :
    ((runRounds a w0 (r + 1)).train_nodes.getD i default).tuples.length = r + 1 ∧
    (((runRounds a w0 (r + 1)).train_nodes.getD i default).tuples.getD q
        default).composite_traintuple_id = localKey w0.next_op_id w0.train_nodes.length q i ∧
    (((runRounds a w0 (r + 1)).train_nodes.getD i default).tuples.getD q
        default).in_head_model_id =
      (if q = 0 then none
        else some (localKey w0.next_op_id w0.train_nodes.length (q - 1) i)) ∧
    (0 < q →
      (((runRounds a w0 (r + 1)).train_nodes.getD i default).tuples.getD q
          default).in_head_model_id =
        some ((((runRounds a w0 (r + 1)).train_nodes.getD i default).tuples.getD (q - 1)
          default).composite_traintuple_id)) ∧
    (((runRounds a w0 (r + 1)).train_nodes.getD i default).tuples.getD q
        default).in_trunk_model_id =
      (if q = 0 then none
        else some (aggKey w0.next_op_id w0.train_nodes.length (q - 1))) ∧
    (0 < q →
      (((runRounds a w0 (r + 1)).train_nodes.getD i default).tuples.getD q
          default).in_trunk_model_id =
        some (((runRounds a w0 (r + 1)).aggregation_node.tuples.getD (q - 1)
          default).aggregate_id)) ∧
    (runRounds a w0 (r + 1)).strat.local_states =
      some ((List.range w0.train_nodes.length).map
        (fun j => (⟨localKey w0.next_op_id w0.train_nodes.length r j⟩ : LocalStateRef))) ∧
    (∀ j q', j < w0.train_nodes.length → q' ≤ r →
      (((runRounds a w0 (r + 1)).train_nodes.getD i default).tuples.getD q
          default).in_head_model_id =
        some (localKey w0.next_op_id w0.train_nodes.length q' j) → j = i) := by
  obtain ⟨s1, s2, s3, s4, s5, s6⟩ := runRounds_spec a w0 h0 (r + 1)
  have hqlt : q < r + 1 := by omega
  have hnd := s5 i hi
  have htup : ((runRounds a w0 (r + 1)).train_nodes.getD i default).tuples =
      (List.range (r + 1)).map (fun q =>
        roundTuple a (w0.train_nodes.getD i default) w0.next_op_id
          w0.train_nodes.length i q) := by
    rw [hnd]
    simp only [hnode0, List.nil_append]
  have hrec : ∀ q', q' < r + 1 →
      ((runRounds a w0 (r + 1)).train_nodes.getD i default).tuples.getD q' default =
        roundTuple a (w0.train_nodes.getD i default) w0.next_op_id
          w0.train_nodes.length i q' := by
    intro q' hq'
    rw [htup, getD_range_map _ _ hq']
  have hatup : (runRounds a w0 (r + 1)).aggregation_node.tuples =
      (List.range (r + 1)).map (fun q =>
        roundAggTuple w0.next_op_id w0.train_nodes.length q) := by
    rw [s6, hagg0]
    simp
  refine ⟨?_, ?_, ?_, ?_, ?_, ?_, ?_, ?_⟩
  · rw [htup]
    simp
  · rw [hrec q hqlt]
    rfl
  · rw [hrec q hqlt]
    rfl
  · intro hq0
    rw [hrec q hqlt, hrec (q - 1) (by omega)]
    simp [roundTuple, if_neg (by omega : ¬ q = 0)]
  · rw [hrec q hqlt]
    rfl
  · intro hq0
    rw [hrec q hqlt, hatup, getD_range_map _ _ (by omega : q - 1 < r + 1)]
    simp [roundTuple, roundAggTuple, if_neg (by omega : ¬ q = 0)]
  · rw [s3]
    simp
  · intro j q' hj hq' heq
    rw [hrec q hqlt] at heq
    rcases Nat.eq_zero_or_pos q with hq0 | hq0
    · subst hq0
      simp [roundTuple] at heq
    · rw [roundTuple] at heq
      simp only [if_neg (by omega : ¬ q = 0), Option.some_inj] at heq
      exact ((localKey_inj hi hj heq).2).symm

/-- Witness for C1 (spec 8's two-round test): after rounds 0 and 1 on the
two-participant world, participant 0's round-1 record consumes exactly
participant 0's round-0 local-state id and round 0's aggregation id. -/
theorem scaffold_round_threading_witness :
    (((runRounds "algo" demoWorld 2).train_nodes.getD 0 default).tuples.getD 1
        default).in_head_model_id = some (localKey 0 2 0 0) ∧
    (((runRounds "algo" demoWorld 2).train_nodes.getD 0 default).tuples.getD 1
        default).in_trunk_model_id = some (aggKey 0 2 0) := by
  obtain ⟨_, _, h3, _, h5, _, _, _⟩ :=
    scaffold_round_threading "algo" demoWorld 1 1 0 rfl (by decide) (by decide) rfl rfl
  exact ⟨by simpa using h3, by simpa using h5⟩

/-! ## Predict claims -/

theorem map_set_of_eq {α β : Type} [Inhabited α] (f : α → β) :
    ∀ (l : List α) (n : Nat) (x : α), n < l.length →
      f x = f (l.getD n default) → (l.set n x).map f = l.map f
  | [], n, x, h, _ => by simp at h
  | a :: t, 0, x, _, hf => by
    simp only [List.getD_cons_zero] at hf
    simp [hf]
  | a :: t, n + 1, x, h, hf => by
    simp only [List.getD_cons_succ] at hf
    have := map_set_of_eq f t n x (by simpa using h) hf
    simp [this]

theorem getD_set_ne {α : Type} (l : List α) (n j : Nat) (x d : α) (h : j ≠ n) :
    (l.set n x).getD j d = l.getD j d := by
  rw [List.getD_eq_getElem?_getD, List.getD_eq_getElem?_getD,
    List.getElem?_set_ne (by omega)]

theorem getD_set_self {α : Type} (l : List α) (n : Nat) (x d : α) (h : n < l.length) :
    (l.set n x).getD n d = x := by
  rw [List.getD_eq_getElem?_getD, List.getElem?_set_self (by omega)]
  rfl

theorem predictStep_no_match (a : String) (ρ : Nat) (w : FLWorld) (k : Nat)
    (h : ∀ tn ∈ w.train_nodes, tn.node_id ≠ (w.test_nodes.getD k default).node_id) :
    predictStep a ρ w k =
      .error (.notImplementedError "Cannot test on a node we did not train on for now.", w) := by
  have hf : (w.train_nodes.filter
      (fun tn => tn.node_id = (w.test_nodes.getD k default).node_id)).isEmpty = true := by
    rw [List.isEmpty_iff, List.filter_eq_nil_iff]
    intro tn htn
    simpa using h tn htn
  rw [predictStep.eq_def]
  simp only [hf, if_pos]

theorem predictStep_no_round (a : String) (ρ : Nat) (w : FLWorld) (k : Nat)
    (hm : ∃ tn ∈ w.train_nodes, tn.node_id = (w.test_nodes.getD k default).node_id)
    (hnone : w.strat.local_states = none) :
    predictStep a ρ w k = .error (.assertionError "previous_local_state is None", w) := by
  obtain ⟨tn, htn, hid⟩ := hm
  have hf : ¬ (w.train_nodes.filter
      (fun tn => tn.node_id = (w.test_nodes.getD k default).node_id)).isEmpty = true := by
    rw [List.isEmpty_iff, List.filter_eq_nil_iff]
    push_neg
    exact ⟨tn, htn, by simpa using hid⟩
  rw [predictStep.eq_def]
  simp [hf, hnone]
  exact ⟨tn, htn, by simpa using hid⟩

theorem predictStep_success (a : String) (ρ : Nat) (w : FLWorld) (k : Nat)
    (ls : List LocalStateRef)
    (hm : ∃ tn ∈ w.train_nodes, tn.node_id = (w.test_nodes.getD k default).node_id)
    (hsome : w.strat.local_states = some ls) :
    ∃ w', predictStep a ρ w k = .ok w' ∧
      w'.strat = w.strat ∧
      w'.train_nodes.map (fun tn => tn.node_id) =
        w.train_nodes.map (fun tn => tn.node_id) ∧
      w'.test_nodes.length = w.test_nodes.length ∧
      (∀ j, (w'.test_nodes.getD j default).node_id =
        (w.test_nodes.getD j default).node_id) ∧
      (∀ j, j ≠ k → w'.test_nodes.getD j default = w.test_nodes.getD j default) := by
  obtain ⟨tn, htn, hid⟩ := hm
  have hf : ¬ (w.train_nodes.filter
      (fun tn => tn.node_id = (w.test_nodes.getD k default).node_id)).isEmpty = true := by
    rw [List.isEmpty_iff, List.filter_eq_nil_iff]
    push_neg
    exact ⟨tn, htn, by simpa using hid⟩
  have hidx : w.train_nodes.findIdx
      (fun tn => tn.node_id = (w.test_nodes.getD k default).node_id)
      < w.train_nodes.length :=
    List.findIdx_lt_length_of_exists ⟨tn, htn, by simpa using hid⟩
  rw [predictStep.eq_def]
  simp only [hf, Bool.false_eq_true, if_false, hsome, Option.map_some']
  refine ⟨_, rfl, rfl, ?_, by simp [List.length_set], ?_, ?_⟩
  · refine map_set_of_eq _ _ _ _ hidx ?_
    simp [TrainDataNode.compute]
  · intro j
    by_cases hjk : j = k
    · subst hjk
      by_cases hlt : j < w.test_nodes.length
      · rw [getD_set_self _ _ _ _ hlt]
      · rw [List.set_eq_of_length_le (Nat.le_of_not_lt hlt)]
    · rw [getD_set_ne _ _ _ _ _ hjk]
  · intro j hjk
    rw [getD_set_ne _ _ _ _ _ hjk]

theorem predictLoop_topology (a : String) (ρ : Nat) (k : Nat) (rest : List Nat) :
    ∀ (js : List Nat) (w : FLWorld) (ls : List LocalStateRef),
      w.strat.local_states = some ls →
      (∀ j ∈ js, ∃ tn ∈ w.train_nodes,
        tn.node_id = (w.test_nodes.getD j default).node_id) →
      (∀ tn ∈ w.train_nodes, tn.node_id ≠ (w.test_nodes.getD k default).node_id) →
      ∃ w', predictLoop a ρ (js ++ k :: rest) w =
          .error (.notImplementedError "Cannot test on a node we did not train on for now.", w') ∧
        w'.test_nodes.getD k default = w.test_nodes.getD k default
  | [], w, ls, hsome, hmatch, hnm => by
    refine ⟨w, ?_, rfl⟩
    simp only [List.nil_append, predictLoop, predictStep_no_match a ρ w k hnm]
  | j :: js, w, ls, hsome, hmatch, hnm => by
    obtain ⟨w1, hok, hstrat, hids, hlen, htid, hunch⟩ :=
      predictStep_success a ρ w j ls (hmatch j (by simp)) hsome
    have hjk : j ≠ k := by
      intro hcon
      obtain ⟨tn, htn, hid⟩ := hmatch j (by simp)
      exact hnm tn htn (hcon ▸ hid)
    have htrans : ∀ X, (∃ tn ∈ w.train_nodes, tn.node_id = X) →
        ∃ tn ∈ w1.train_nodes, tn.node_id = X := by
      intro X ⟨tn, htn, hid⟩
      have hX : X ∈ w.train_nodes.map (fun tn => tn.node_id) :=
        List.mem_map.mpr ⟨tn, htn, hid⟩
      rw [← hids] at hX
      obtain ⟨tn', h1, h2⟩ := List.mem_map.mp hX
      exact ⟨tn', h1, h2⟩
    have hsome1 : w1.strat.local_states = some ls := by rw [hstrat]; exact hsome
    have hmatch1 : ∀ j' ∈ js, ∃ tn ∈ w1.train_nodes,
        tn.node_id = (w1.test_nodes.getD j' default).node_id := by
      intro j' hj'
      rw [htid j']
      exact htrans _ (hmatch j' (by simp [hj']))
    have hnm1 : ∀ tn ∈ w1.train_nodes,
        tn.node_id ≠ (w1.test_nodes.getD k default).node_id := by
      intro tn1 htn1 hcon
      have hX : tn1.node_id ∈ w1.train_nodes.map (fun tn => tn.node_id) :=
        List.mem_map.mpr ⟨tn1, htn1, rfl⟩
      rw [hids] at hX
      obtain ⟨tn', h1, h2⟩ := List.mem_map.mp hX
      refine hnm tn' h1 ?_
      rw [h2, hcon, htid k]
    obtain ⟨w', hw', hkeep⟩ :=
      predictLoop_topology a ρ k rest js w1 ls hsome1 hmatch1 hnm1
    refine ⟨w', ?_, ?_⟩
    · simp only [List.cons_append, predictLoop, hok]
      exact hw'
    · rw [hkeep, hunch k (fun hcon => hjk hcon.symm)]

/-- C7: `predict` on a non-empty evaluation-node list fails with the
assertion (precondition) error when no round has stored local states yet
— recording nothing anywhere — and fails with the `NotImplementedError`
topology error at the first evaluation node whose identity matches no
training node, leaving that node's log untouched. -/
theorem scaffold_predict_errors (a : String) (ρ : Nat) (w : FLWorld) :
    (w.strat.local_states = none → w.test_nodes ≠ [] →
      (∀ t ∈ w.test_nodes, ∃ tn ∈ w.train_nodes, tn.node_id = t.node_id) →
      Scaffold.predict a ρ w =
        .error (.assertionError "previous_local_state is None", w)) ∧
    (∀ ls k, w.strat.local_states = some ls → k < w.test_nodes.length →
      (∀ i, i < k → ∃ tn ∈ w.train_nodes,
        tn.node_id = (w.test_nodes.getD i default).node_id) →
      (∀ tn ∈ w.train_nodes, tn.node_id ≠ (w.test_nodes.getD k default).node_id) →
      ∃ w', Scaffold.predict a ρ w =
          .error (.notImplementedError "Cannot test on a node we did not train on for now.", w') ∧
        w'.test_nodes.getD k default = w.test_nodes.getD k default) := by
  constructor
  · intro hnone hne hall
    obtain ⟨t0, ts, hts⟩ : ∃ t0 ts, w.test_nodes = t0 :: ts := by
      match w.test_nodes, hne with
      | t0 :: ts, _ => exact ⟨t0, ts, rfl⟩
    have hm0 : ∃ tn ∈ w.train_nodes,
        tn.node_id = (w.test_nodes.getD 0 default).node_id := by
      have := hall t0 (by rw [hts]; simp)
      rw [hts, List.getD_cons_zero]
      exact this
    have hstep := predictStep_no_round a ρ w 0 hm0 hnone
    obtain ⟨tail, htail⟩ : ∃ tail, List.range w.test_nodes.length = 0 :: tail := by
      rw [hts, List.length_cons]
      exact ⟨_, List.range_succ_eq_map _⟩
    rw [Scaffold.predict, htail]
    simp only [predictLoop, hstep]
  · intro ls k hsome hk hbefore hnm
    have hdecomp : List.range w.test_nodes.length =
        List.range k ++ k :: List.range' (k + 1) (w.test_nodes.length - k - 1) := by
      rw [List.range_eq_range', List.range_eq_range']
      have h1 : List.range' 0 k ++ List.range' (0 + 1 * k) (w.test_nodes.length - k) =
          List.range' 0 (w.test_nodes.length - k + k) := List.range'_append 0 k _ 1
      rw [Nat.sub_add_cancel (by omega)] at h1
      rw [← h1]
      congr 1
      · simp [Nat.one_mul]
        rw [show w.test_nodes.length - k = (w.test_nodes.length - k - 1) + 1 by omega]
        rw [List.range'_succ]
        exact congrArg₂ List.cons rfl (congrArg (List.range' (k + 1)) (by omega))
    rw [Scaffold.predict, hdecomp]
    exact predictLoop_topology a ρ k _ (List.range k) w ls hsome
      (fun j hj => hbefore j (List.mem_range.mp hj)) hnm

/-- Witness for C7: in `earlyPredictWorld` (no completed round) `predict`
raises the assertion error and changes nothing; in `orphanTestWorld` (an
unmatched evaluation node) it raises `NotImplementedError` and records no
evaluation operation on that node. -/
theorem scaffold_predict_errors_witness :
    Scaffold.predict "a" 0 earlyPredictWorld =
      .error (.assertionError "previous_local_state is None", earlyPredictWorld) ∧
    (∃ w', Scaffold.predict "a" 0 orphanTestWorld =
        .error (.notImplementedError "Cannot test on a node we did not train on for now.", w') ∧
      w'.test_nodes.getD 0 default = orphanTestWorld.test_nodes.getD 0 default) := by
  constructor
  · exact (scaffold_predict_errors "a" 0 earlyPredictWorld).1 rfl (by decide) (by decide)
  · exact (scaffold_predict_errors "a" 0 orphanTestWorld).2 [⟨7⟩] 0 rfl (by decide)
      (by intro i hi; exact absurd hi (by omega)) (by decide)
